import Mathlib

/-!
Verification of the Seoul daily-temperature history analyzer (src/main.py).

The development shallowly embeds the two parts of the program that carry
logic:

* `load_data` (src/main.py lines 16-70): CSV ingestion with a UTF-8 →
  cp949 encoding fallback, header-name trimming, date-column synonym
  renaming, date-value cleaning and permissive parsing, and removal of
  rows with missing temperature values.
* the per-date analysis inside `main` (src/main.py lines 124-163 and
  200-208): extraction of the target row, the same-(month, day) cohort,
  the cohort mean, the signed delta, the pandas average rank, and the
  optional trend curve guarded by `len(historical_df) > 5`.

External libraries are modelled at their interfaces: the byte-level
decoding done by `pd.read_csv` is a `Source` whose two read attempts are
oracle fields; `pd.to_datetime(errors='coerce')` is an arbitrary
`String → Option Date` argument; the lowess smoother is an arbitrary
function returning `Option`.  Temperatures are rationals.
-/

namespace SeoulTemp

/-- A naive calendar date, as produced by `pd.to_datetime` and
`st.date_input` (year, month, day; no time zone). -/
structure Date where
  year : Int
  month : Nat
  day : Nat
deriving DecidableEq

/-- One cell of a pandas DataFrame as `pd.read_csv` and the subsequent
processing produce it: a string, a number, a parsed date, or a missing
value (NaN / NaT). -/
inductive Cell where
  | str (s : String)
  | num (q : ℚ)
  | date (d : Date)
  | na
deriving DecidableEq

/-- A DataFrame: named columns and rows of cells, row i's cells aligned
positionally with `columns`. -/
structure RawTable where
  columns : List String
  rows : List (List Cell)
deriving DecidableEq

/-- The whitespace set of Python's `str.strip()`. -/
def isPySpace (c : Char) : Bool :=
  c == ' ' || c == '\t' || c == '\n' || c == '\r' || c == '\x0b' || c == '\x0c'

/-- Python `str.strip()`: drop leading and trailing whitespace. -/
def pyStrip (s : String) : String :=
  String.mk (((s.data.dropWhile isPySpace).reverse.dropWhile isPySpace).reverse)

/-- Python `str.replace('\t', '')`: remove every tab character. -/
def removeTabs (s : String) : String :=
  String.mk (s.data.filter fun c => !(c == '\t'))

/-- The canonical date column name '날짜' (src/main.py line 47). -/
def dateColName : String := "날짜"

/-- The mean-temperature column name (src/main.py line 64). -/
def meanColName : String := "평균기온(℃)"

/-- The three required temperature columns, `cols_to_check`
(src/main.py line 64). -/
def tempCols : List String := [meanColName, "최저기온(℃)", "최고기온(℃)"]

/-- Column selection `df[c]` for one row: the cell at the position of the
first column named `c`; `na` when the column is absent. -/
def getCell (cols : List String) (r : List Cell) (c : String) : Cell :=
  match cols.findIdx? (fun x => decide (x = c)) with
  | some i => r.getD i Cell.na
  | none => Cell.na

/-- `pd.isna` on one cell. -/
def Cell.isna : Cell → Bool
  | Cell.na => true
  | _ => false

/-- Numeric view of a cell. -/
def Cell.asNum : Cell → Option ℚ
  | Cell.num q => some q
  | _ => none

/-- `astype(str)` on one cell: strings stay, numbers print, a missing
value prints as "nan".  A `date` cell cannot occur before date cleaning;
its image is irrelevant. -/
def cellToString : Cell → String
  | Cell.str s => s
  | Cell.num q => toString q
  | Cell.date _ => ""
  | Cell.na => "nan"

/-- `df.columns.str.strip()` (src/main.py line 34). -/
def stripCols (t : RawTable) : RawTable :=
  { t with columns := t.columns.map pyStrip }

/-- The `col_mapping` synonym table applied to one header name
(src/main.py lines 38-44). -/
def renameSyn (c : String) : String :=
  if c = "일시" ∨ c = "date" ∨ c = "Date" ∨ c = "time" then dateColName else c

/-- `df.rename(columns=col_mapping)` (src/main.py line 44). -/
def renameCols (t : RawTable) : RawTable :=
  { t with columns := t.columns.map renameSyn }

/-- Date-value cleaning for one cell (src/main.py lines 55-58):
`astype(str)`, `str.strip()`, tab removal, then
`pd.to_datetime(errors='coerce')` — an unparseable value becomes NaT,
never a raised fault.  `parse` stands for `pd.to_datetime` on a single
cleaned string. -/
def cleanDateCell (parse : String → Option Date) (c : Cell) : Cell :=
  match parse (removeTabs (pyStrip (cellToString c))) with
  | some d => Cell.date d
  | none => Cell.na

/-- `df['날짜'] = ...` over the whole date column (src/main.py
lines 55-58). -/
def cleanDates (parse : String → Option Date) (t : RawTable) : RawTable :=
  match t.columns.findIdx? (fun x => decide (x = dateColName)) with
  | some i =>
    { t with rows := t.rows.map fun r => r.set i (cleanDateCell parse (r.getD i Cell.na)) }
  | none => t

/-- `df.dropna(subset=existing_cols)` where `existing_cols` is the part
of `cols_to_check` present in the table (src/main.py lines 64-68); when
no temperature column is present the filter is skipped, which the empty
`all` reproduces. -/
def dropnaTemps (t : RawTable) : RawTable :=
  let existing := tempCols.filter fun c => decide (c ∈ t.columns)
  { t with rows := t.rows.filter fun r => existing.all fun c => !(getCell t.columns r c).isna }

/-- One read attempt of `pd.read_csv(source, skiprows=7, encoding=...)`:
a parsed table, a `UnicodeDecodeError`, or any other exception. -/
inductive ReadResult where
  | ok (t : RawTable)
  | decodeFail (msg : String)
  | otherFail (msg : String)

/-- A source (file path or uploaded buffer) at the interface `load_data`
uses it through: whether it has a `seek` attribute, the stream position
left behind by a failed primary read (0 for a path source, which is
reopened on every read), and the outcomes of reading it with the primary
encoding from the start and with the fallback encoding from a given
position. -/
structure Source where
  seekable : Bool
  consumedPos : Nat
  readPrimary : ReadResult
  readFallback : Nat → ReadResult

/-- Diagnostic attached to the `st.error` paths of `load_data`. -/
inductive Diag where
  | readError (msg : String)
  | schemaError (cols : List String)

/-- Result of `load_data`: a normalized table, the explicit empty
DataFrame returned on a handled error (with its diagnostic), or an
exception that escapes the function. -/
inductive LoadResult where
  | ok (t : RawTable)
  | emptyTable (d : Diag)
  | uncaught (msg : String)

/-- Steps B-F of `load_data` (src/main.py lines 33-70): strip header
names, apply the synonym mapping, fail with the observed column list
when no '날짜' column remains (returning the empty DataFrame), otherwise
clean and parse the date column and drop rows with a missing temperature
value.  The `try`/`except` around the date conversion (lines 54-61)
guards pandas-internal faults that the pure model cannot raise. -/
def normalizeFrom (parse : String → Option Date) (t : RawTable) : LoadResult :=
  let t1 := renameCols (stripCols t)
  if dateColName ∈ t1.columns then
    LoadResult.ok (dropnaTemps (cleanDates parse t1))
  else
    LoadResult.emptyTable (Diag.schemaError t1.columns)

/-- `load_data` (src/main.py lines 16-70).  The primary UTF-8 read is
attempted first; a `UnicodeDecodeError` triggers `seek(0)` when the
source has a `seek` attribute and a cp949 retry, whose own failures are
raised inside the `except` handler and therefore escape the function;
any other exception of the primary read is caught and yields the empty
DataFrame. -/
def load_data (parse : String → Option Date) (s : Source) : LoadResult :=
  match s.readPrimary with
  | ReadResult.ok t => normalizeFrom parse t
  | ReadResult.otherFail m => LoadResult.emptyTable (Diag.readError m)
  | ReadResult.decodeFail _ =>
    match s.readFallback (if s.seekable then 0 else s.consumedPos) with
    | ReadResult.ok t => normalizeFrom parse t
    | ReadResult.decodeFail m => LoadResult.uncaught m
    | ReadResult.otherFail m => LoadResult.uncaught m

/-- The rows of the DataFrame a `load_data` call returns: the normalized
rows, the empty frame on a handled error, and nothing at all when an
exception escapes. -/
def LoadResult.returnedRows : LoadResult → Option (List (List Cell))
  | LoadResult.ok t => some t.rows
  | LoadResult.emptyTable _ => some []
  | LoadResult.uncaught _ => none

/-- `target_row = df[df['날짜'].dt.date == selected_date]`
(src/main.py line 124).  A NaT date never equals a real date. -/
def targetRows (nt : RawTable) (d : Date) : List (List Cell) :=
  nt.rows.filter fun r => decide (getCell nt.columns r dateColName = Cell.date d)

/-- The cohort membership test of src/main.py lines 134-137: the row's
parsed date shares month and day with the selected date. -/
def monthDayHit (cols : List String) (r : List Cell) (d : Date) : Bool :=
  match getCell cols r dateColName with
  | Cell.date d2 => decide (d2.month = d.month) && decide (d2.day = d.day)
  | _ => false

/-- `historical_df` (src/main.py lines 134-137): the rows whose date
matches the selected date's month and day, in table order. -/
def buildCohort (nt : RawTable) (d : Date) : List (List Cell) :=
  nt.rows.filter fun r => monthDayHit nt.columns r d

/-- Years of the cohort rows, in cohort order. -/
def cohortYears (nt : RawTable) (d : Date) : List Int :=
  (buildCohort nt d).filterMap fun r =>
    match getCell nt.columns r dateColName with
    | Cell.date d2 => some d2.year
    | _ => none

/-- The numeric mean-temperature values of the cohort
(`historical_df['평균기온(℃)']` with missing values skipped, as every
pandas reduction does). -/
def meanVals (nt : RawTable) (d : Date) : List ℚ :=
  (buildCohort nt d).filterMap fun r => (getCell nt.columns r meanColName).asNum

/-- `Series.mean()`: sum of the values divided by their count. -/
def listMean (l : List ℚ) : ℚ := l.sum / (l.length : ℚ)

/-- Occurrences of the value `v` in `vals`. -/
def countEq (vals : List ℚ) (v : ℚ) : Nat :=
  vals.countP fun x => decide (x = v)

/-- Values of `vals` strictly greater than `v`. -/
def countGt (vals : List ℚ) (v : ℚ) : Nat :=
  vals.countP fun x => decide (v < x)

/-- `Series.rank(ascending=False)` with the default 'average' method,
read off at a row holding value `v` (src/main.py line 161): the values
above `v` each take one position, and the tie group of `v` shares the
average of its positions. -/
def rankDesc (vals : List ℚ) (v : ℚ) : ℚ :=
  (countGt vals v : ℚ) + ((countEq vals v : ℚ) + 1) / 2

/-- The metrics the app reports for one selected date
(src/main.py lines 130-163). -/
structure AnalysisResult where
  target_mean : ℚ
  cohort_mean : ℚ
  delta : ℚ
  rank : ℚ
  rank_displayed : Int
  cohort_size : Nat
deriving DecidableEq

/-- The analysis block of `main` (src/main.py lines 124-163): stop with
a warning when the selected date has no row; otherwise take the first
target row's mean temperature (`.values[0]`), the cohort mean, the
signed delta, the average rank of the target's value in the descending
ordering, its display truncation `int(rank)` (the rank is positive, so
truncation is the floor), and `len(historical_df)`.  A target row whose
mean-temperature cell is not numeric aborts the script in the source
(no metrics are produced); the model returns `none` there. -/
def analyze (nt : RawTable) (d : Date) : Option AnalysisResult :=
  match targetRows nt d with
  | [] => none
  | r :: _ =>
    match (getCell nt.columns r meanColName).asNum with
    | none => none
    | some tval =>
      some {
        target_mean := tval
        cohort_mean := listMean (meanVals nt d)
        delta := tval - listMean (meanVals nt d)
        rank := rankDesc (meanVals nt d) tval
        rank_displayed := Int.floor (rankDesc (meanVals nt d) tval)
        cohort_size := (buildCohort nt d).length }

/-- Sum of the 1-based positions (counted from `k`) at which `v` occurs
in a list. -/
def posSumFrom (v : ℚ) : List ℚ → Nat → ℚ
  | [], _ => 0
  | x :: xs, k => (if x = v then (k : ℚ) else 0) + posSumFrom v xs (k + 1)

/-- Metrics plus the optional trend overlay. -/
structure DisplayOutput where
  metrics : AnalysisResult
  trend : Option (List (ℚ × ℚ))

/-- The analysis together with the guarded trend step
(src/main.py lines 200-208): the lowess smoothing — modelled by the
`smooth` argument, `none` covering both an unavailable dependency and
any exception swallowed by the bare `except` — is consulted only when
the cohort has more than 5 rows, and its outcome only feeds the optional
overlay. -/
def runAnalysis (smooth : List (List Cell) → Option (List (ℚ × ℚ)))
    (nt : RawTable) (d : Date) : Option DisplayOutput :=
  match analyze nt d with
  | none => none
  | some a =>
    some { metrics := a
           trend := if (buildCohort nt d).length > 5 then smooth (buildCohort nt d) else none }

/-! ### Basic facts about the cohort and target-row selections -/

lemma mem_targetRows (nt : RawTable) (d : Date) (r : List Cell) :
    r ∈ targetRows nt d ↔
      r ∈ nt.rows ∧ getCell nt.columns r dateColName = Cell.date d := by
  simp [targetRows, List.mem_filter]

lemma mem_buildCohort (nt : RawTable) (d : Date) (r : List Cell) :
    r ∈ buildCohort nt d ↔ r ∈ nt.rows ∧ monthDayHit nt.columns r d = true := by
  simp [buildCohort, List.mem_filter]

lemma monthDayHit_of_dateCell (cols : List String) (r : List Cell) (d : Date)
    (h : getCell cols r dateColName = Cell.date d) :
    monthDayHit cols r d = true := by
  simp [monthDayHit, h]

lemma targetRows_mem_cohort (nt : RawTable) (d : Date) (r : List Cell)
    (h : r ∈ targetRows nt d) : r ∈ buildCohort nt d := by
  rw [mem_targetRows] at h
  exact (mem_buildCohort nt d r).mpr ⟨h.1, monthDayHit_of_dateCell _ _ _ h.2⟩

/-! ### C4 — cohort membership and ordering -/

/-- A normalized table whose rows are not in ascending year order: the
1996 observation precedes the 1995 one. -/
def tblC4 : RawTable :=
  { columns := [dateColName, meanColName]
    rows := [[Cell.date ⟨1996, 3, 1⟩, Cell.num 5],
             [Cell.date ⟨1995, 3, 1⟩, Cell.num 7]] }

/-- C4 counterexample: for the table whose rows carry March 1 of 1996
and then 1995, the cohort for 1996-03-01 lists the years in source
order [1996, 1995], which is not ascending — the claim's "ordered by
year ascending regardless of the row order of the source input" fails
on the code, which keeps the DataFrame's row order. -/
theorem C4_counterexample :
    cohortYears tblC4 ⟨1996, 3, 1⟩ = [1996, 1995] ∧
    ¬ List.Pairwise (fun a b : Int => a ≤ b) (cohortYears tblC4 ⟨1996, 3, 1⟩) := by
  refine ⟨rfl, ?_⟩
  rw [show cohortYears tblC4 ⟨1996, 3, 1⟩ = [1996, 1995] from rfl]
  decide

/-- C4 (amended): for every table and target date, the cohort consists
of exactly the rows whose parsed date matches the target's (month, day),
kept in the table's own row order (a sublist of the rows); it is
ascending by year only when the table itself is. -/
theorem C4_cohort_membership_order (nt : RawTable) (d : Date) :
    (buildCohort nt d).Sublist nt.rows ∧
    ∀ r, r ∈ buildCohort nt d ↔ r ∈ nt.rows ∧ monthDayHit nt.columns r d = true :=
  ⟨List.filter_sublist nt.rows, fun r => mem_buildCohort nt d r⟩

/-- C4 witness: the amended statement evaluated on the concrete
two-row table. -/
theorem C4_witness :
    (buildCohort tblC4 ⟨1996, 3, 1⟩).Sublist tblC4.rows ∧
    ([Cell.date ⟨1996, 3, 1⟩, Cell.num 5] ∈ buildCohort tblC4 ⟨1996, 3, 1⟩ ↔
      [Cell.date ⟨1996, 3, 1⟩, Cell.num 5] ∈ tblC4.rows ∧
      monthDayHit tblC4.columns [Cell.date ⟨1996, 3, 1⟩, Cell.num 5] ⟨1996, 3, 1⟩ = true) :=
  ⟨(C4_cohort_membership_order tblC4 ⟨1996, 3, 1⟩).1,
   (C4_cohort_membership_order tblC4 ⟨1996, 3, 1⟩).2 _⟩

/-! ### C6 — the target's own observation is a cohort member -/

/-- C6: whenever some row of the table carries exactly the selected
date, the cohort built for that date is non-empty and contains an
observation dated exactly the selected date (the target's own row). -/
theorem C6_cohort_contains_target (nt : RawTable) (d : Date)
    (h : ∃ r, r ∈ nt.rows ∧ getCell nt.columns r dateColName = Cell.date d) :
    buildCohort nt d ≠ [] ∧
    ∃ r, r ∈ buildCohort nt d ∧ getCell nt.columns r dateColName = Cell.date d := by
  obtain ⟨r, hr, hd⟩ := h
  have hm : r ∈ buildCohort nt d :=
    (mem_buildCohort nt d r).mpr ⟨hr, monthDayHit_of_dateCell _ _ _ hd⟩
  exact ⟨fun he => by simp [he] at hm, r, hm, hd⟩

/-- A one-row normalized table for the C6 witness. -/
def tblC6 : RawTable :=
  { columns := [dateColName, meanColName]
    rows := [[Cell.date ⟨2020, 1, 1⟩, Cell.num 5]] }

/-- C6 witness: the theorem evaluated on a concrete one-row table. -/
theorem C6_witness :
    buildCohort tblC6 ⟨2020, 1, 1⟩ ≠ [] ∧
    ∃ r, r ∈ buildCohort tblC6 ⟨2020, 1, 1⟩ ∧
      getCell tblC6.columns r dateColName = Cell.date ⟨2020, 1, 1⟩ :=
  C6_cohort_contains_target tblC6 ⟨2020, 1, 1⟩
    ⟨[Cell.date ⟨2020, 1, 1⟩, Cell.num 5], by decide, rfl⟩

/-! ### C7 — missing date column after mapping -/

/-- C7: when the primary read succeeds but no header resolves to '날짜'
after trimming and synonym mapping, `load_data` takes the schema-error
path, reporting exactly the column names present at that point, and
returns the empty DataFrame. -/
theorem C7_schema_error (parse : String → Option Date) (s : Source) (t : RawTable)
    (h1 : s.readPrimary = ReadResult.ok t)
    (h2 : dateColName ∉ (renameCols (stripCols t)).columns) :
    load_data parse s =
      LoadResult.emptyTable (Diag.schemaError (renameCols (stripCols t)).columns) ∧
    (load_data parse s).returnedRows = some [] := by
  have hstep : load_data parse s = normalizeFrom parse t := by
    unfold load_data
    rw [h1]
  have hmain : load_data parse s =
      LoadResult.emptyTable (Diag.schemaError (renameCols (stripCols t)).columns) := by
    rw [hstep]
    simp only [normalizeFrom]
    rw [if_neg h2]
  exact ⟨hmain, by rw [hmain]; rfl⟩

/-- A source whose header row (read with a wrong skip offset, say)
contains no recognizable date column. -/
def srcC7 : Source :=
  { seekable := true
    consumedPos := 0
    readPrimary := ReadResult.ok
      { columns := ["garbage1", " garbage2 "], rows := [[Cell.str "x", Cell.num 1]] }
    readFallback := fun _ => ReadResult.decodeFail "unused" }

/-- C7 witness: on the concrete garbage-header source, `load_data`
reports the trimmed header names and returns the empty frame. -/
theorem C7_witness :
    load_data (fun _ => none) srcC7 =
      LoadResult.emptyTable (Diag.schemaError ["garbage1", "garbage2"]) ∧
    (load_data (fun _ => none) srcC7).returnedRows = some [] :=
  C7_schema_error (fun _ => none) srcC7
    { columns := ["garbage1", " garbage2 "], rows := [[Cell.str "x", Cell.num 1]] }
    rfl (by decide)

/-! ### C3 — encoding fallback -/

/-- A source that fails to decode under both encodings. -/
def srcC3 : Source :=
  { seekable := true
    consumedPos := 37
    readPrimary := ReadResult.decodeFail "utf-8 codec cant decode"
    readFallback := fun _ => ReadResult.decodeFail "cp949 codec cant decode" }

/-- C3 counterexample: when the cp949 fallback also fails to decode,
`load_data` lets the raw decode fault escape to the caller — there is no
`DecodeError` wrapper and nothing is returned, contradicting the claim
that an unrecovered low-level decode fault never reaches the caller. -/
theorem C3_counterexample :
    load_data (fun _ => none) srcC3 = LoadResult.uncaught "cp949 codec cant decode" ∧
    (load_data (fun _ => none) srcC3).returnedRows = none :=
  ⟨rfl, rfl⟩

/-- C3 (amended): on a primary decode failure the loader retries with
cp949 from position 0 when the source is rewindable (from the position
the failed attempt left otherwise); a successful fallback proceeds to
normalization, while a fallback failure of any kind propagates uncaught
to the caller. -/
theorem C3_fallback_behaviour (parse : String → Option Date) (s : Source) (m : String)
    (h : s.readPrimary = ReadResult.decodeFail m) :
    load_data parse s =
      match s.readFallback (if s.seekable then 0 else s.consumedPos) with
      | ReadResult.ok t => normalizeFrom parse t
      | ReadResult.decodeFail m2 => LoadResult.uncaught m2
      | ReadResult.otherFail m2 => LoadResult.uncaught m2 := by
  unfold load_data
  rw [h]

/-- C3 witness: the amended statement evaluated on the concrete
double-failure source. -/
theorem C3_witness :
    load_data (fun _ => none) srcC3 = LoadResult.uncaught "cp949 codec cant decode" :=
  C3_fallback_behaviour (fun _ => none) srcC3 "utf-8 codec cant decode" rfl

/-! ### C9 — loading is deterministic in the source content -/

/-- C9: `load_data` is a pure function of the source and the date
parser; two runs on equal sources give equal results (hence equal row
counts and equal field values everywhere). -/
theorem C9_load_deterministic (parse : String → Option Date) (s1 s2 : Source)
    (h : s1 = s2) : load_data parse s1 = load_data parse s2 := by
  rw [h]

/-- A small well-formed source for the C9 witness. -/
def srcC9 : Source :=
  { seekable := false
    consumedPos := 0
    readPrimary := ReadResult.ok tblC6
    readFallback := fun _ => ReadResult.decodeFail "unused" }

/-- C9 witness: determinism evaluated on a concrete source. -/
theorem C9_witness :
    load_data (fun _ => none) srcC9 = load_data (fun _ => none) srcC9 :=
  C9_load_deterministic (fun _ => none) srcC9 srcC9 rfl

/-! ### The average-rank rule -/

lemma countP_add_countP_le {α : Type} (p q : α → Bool) (l : List α)
    (h : ∀ a, ¬(p a = true ∧ q a = true)) :
    l.countP p + l.countP q ≤ l.length := by
  induction l with
  | nil => simp
  | cons x xs ih =>
    rw [List.countP_cons, List.countP_cons, List.length_cons]
    have := h x
    by_cases hp : p x = true <;> by_cases hq : q x = true <;> simp [hp, hq] at * <;> omega

lemma countGt_add_countEq_le (vals : List ℚ) (v : ℚ) :
    countGt vals v + countEq vals v ≤ vals.length := by
  refine countP_add_countP_le _ _ vals ?_
  intro a ha
  simp only [decide_eq_true_eq] at ha
  exact absurd ha.2 (ne_of_gt ha.1)

lemma one_le_countEq (vals : List ℚ) (v : ℚ) (h : v ∈ vals) :
    1 ≤ countEq vals v := by
  have : 0 < countEq vals v := List.countP_pos_iff.mpr ⟨v, h, by simp⟩
  omega

lemma rankDesc_ge_one (vals : List ℚ) (v : ℚ) (h : v ∈ vals) :
    1 ≤ rankDesc vals v := by
  have h1 : (1 : ℚ) ≤ (countEq vals v : ℚ) := by exact_mod_cast one_le_countEq vals v h
  have h2 : (0 : ℚ) ≤ (countGt vals v : ℚ) := by positivity
  unfold rankDesc
  linarith

lemma rankDesc_le_length (vals : List ℚ) (v : ℚ) (h : v ∈ vals) :
    rankDesc vals v ≤ (vals.length : ℚ) := by
  have h1 : (1 : ℚ) ≤ (countEq vals v : ℚ) := by exact_mod_cast one_le_countEq vals v h
  have h2 : (countGt vals v : ℚ) + (countEq vals v : ℚ) ≤ (vals.length : ℚ) := by
    exact_mod_cast countGt_add_countEq_le vals v
  unfold rankDesc
  linarith

lemma countEq_cons (x v : ℚ) (xs : List ℚ) :
    countEq (x :: xs) v = countEq xs v + (if x = v then 1 else 0) := by
  simp [countEq, List.countP_cons]

lemma countGt_cons (x v : ℚ) (xs : List ℚ) :
    countGt (x :: xs) v = countGt xs v + (if v < x then 1 else 0) := by
  simp [countGt, List.countP_cons]

lemma posSumFrom_succ (v : ℚ) (xs : List ℚ) :
    ∀ k : Nat, posSumFrom v xs (k + 1) = posSumFrom v xs k + (countEq xs v : ℚ) := by
  induction xs with
  | nil => intro k; simp [posSumFrom, countEq]
  | cons x xs ih =>
    intro k
    rw [posSumFrom, posSumFrom, ih (k + 1), countEq_cons]
    by_cases h : x = v
    · simp only [if_pos h]
      push_cast
      ring
    · simp only [if_neg h]
      push_cast
      ring

lemma countEq_eq_zero_of_forall (xs : List ℚ) (v : ℚ)
    (h : ∀ y ∈ xs, ¬ y = v) : countEq xs v = 0 := by
  unfold countEq
  rw [List.countP_eq_zero]
  intro a ha
  simpa using h a ha

lemma countGt_eq_zero_of_forall (xs : List ℚ) (v : ℚ)
    (h : ∀ y ∈ xs, ¬ v < y) : countGt xs v = 0 := by
  unfold countGt
  rw [List.countP_eq_zero]
  intro a ha
  simpa using h a ha

/-- In a descending-sorted list the occurrences of `v` occupy the
consecutive positions just after the values above `v`, so the sum of
their 1-based positions is determined by the two counts. -/
lemma posSumFrom_sorted (v : ℚ) :
    ∀ l : List ℚ, l.Pairwise (fun a b => b ≤ a) →
      posSumFrom v l 1 =
        (countGt l v : ℚ) * (countEq l v : ℚ) +
          (countEq l v : ℚ) * ((countEq l v : ℚ) + 1) / 2 := by
  intro l
  induction l with
  | nil => intro _; simp [posSumFrom, countGt, countEq]
  | cons x xs ih =>
    intro hp
    rw [List.pairwise_cons] at hp
    obtain ⟨hx, hxs⟩ := hp
    have hrest := ih hxs
    rw [posSumFrom, posSumFrom_succ v xs 1, hrest, countEq_cons, countGt_cons]
    by_cases hxv : x = v
    · subst hxv
      have hg : countGt xs x = 0 :=
        countGt_eq_zero_of_forall xs x (fun y hy => not_lt.mpr (hx y hy))
      rw [hg]
      simp only [if_pos rfl, lt_irrefl, if_false]
      push_cast
      ring
    · by_cases hvx : v < x
      · simp only [if_neg hxv, if_pos hvx]
        push_cast
        ring
      · have hlt : x < v := lt_of_le_of_ne (not_lt.mp hvx) hxv
        have he : countEq xs v = 0 :=
          countEq_eq_zero_of_forall xs v
            (fun y hy => ne_of_lt (lt_of_le_of_lt (hx y hy) hlt))
        have hg : countGt xs v = 0 :=
          countGt_eq_zero_of_forall xs v
            (fun y hy => not_lt.mpr (le_of_lt (lt_of_le_of_lt (hx y hy) hlt)))
        rw [he, hg]
        simp only [if_neg hxv, if_neg hvx]
        push_cast
        ring

/-! ### Shape of a successful analysis -/

lemma analyze_some_spec (nt : RawTable) (d : Date) (a : AnalysisResult)
    (h : analyze nt d = some a) :
    ∃ r rest, targetRows nt d = r :: rest ∧
      (getCell nt.columns r meanColName).asNum = some a.target_mean ∧
      a.cohort_mean = listMean (meanVals nt d) ∧
      a.delta = a.target_mean - listMean (meanVals nt d) ∧
      a.rank = rankDesc (meanVals nt d) a.target_mean ∧
      a.rank_displayed = Int.floor a.rank ∧
      a.cohort_size = (buildCohort nt d).length := by
  unfold analyze at h
  split at h
  · exact absurd h (by simp)
  · rename_i r rest ht
    split at h
    · exact absurd h (by simp)
    · rename_i tval hn
      have ha : a = {
          target_mean := tval
          cohort_mean := listMean (meanVals nt d)
          delta := tval - listMean (meanVals nt d)
          rank := rankDesc (meanVals nt d) tval
          rank_displayed := Int.floor (rankDesc (meanVals nt d) tval)
          cohort_size := (buildCohort nt d).length } := by
        injection h with h2
        exact h2.symm
      subst ha
      exact ⟨r, rest, ht, hn, rfl, rfl, rfl, rfl, rfl⟩

lemma target_mean_mem_meanVals (nt : RawTable) (d : Date) (a : AnalysisResult)
    (h : analyze nt d = some a) : a.target_mean ∈ meanVals nt d := by
  obtain ⟨r, rest, ht, hn, -⟩ := analyze_some_spec nt d a h
  have hr : r ∈ targetRows nt d := by rw [ht]; exact List.mem_cons_self r rest
  exact List.mem_filterMap.mpr ⟨r, targetRows_mem_cohort nt d r hr, hn⟩

/-! ### C5 — rank bounds and the trivial cohort -/

/-- C5: whenever the analysis produces a result, the rank (both the
average rank and its integer display truncation) lies within
[1, cohort_size]; and a cohort of size 1 yields rank 1 and delta 0. -/
theorem C5_rank_bounds (nt : RawTable) (d : Date) (a : AnalysisResult)
    (h : analyze nt d = some a) :
    (1 ≤ a.rank ∧ a.rank ≤ (a.cohort_size : ℚ) ∧
      1 ≤ a.rank_displayed ∧ a.rank_displayed ≤ (a.cohort_size : Int)) ∧
    (a.cohort_size = 1 → a.rank = 1 ∧ a.delta = 0) := by
  obtain ⟨r, rest, ht, hn, hcm, hd, hrk, hrd, hcs⟩ := analyze_some_spec nt d a h
  have hmem : a.target_mean ∈ meanVals nt d := target_mean_mem_meanVals nt d a h
  have h1 : 1 ≤ a.rank := by rw [hrk]; exact rankDesc_ge_one _ _ hmem
  have hlen : (meanVals nt d).length ≤ (buildCohort nt d).length :=
    List.length_filterMap_le _ _
  have h2 : a.rank ≤ (a.cohort_size : ℚ) := by
    rw [hrk, hcs]
    calc rankDesc (meanVals nt d) a.target_mean
        ≤ ((meanVals nt d).length : ℚ) := rankDesc_le_length _ _ hmem
      _ ≤ ((buildCohort nt d).length : ℚ) := by exact_mod_cast hlen
  have h3 : 1 ≤ a.rank_displayed := by
    rw [hrd]
    exact Int.le_floor.mpr (by exact_mod_cast h1)
  have h4 : a.rank_displayed ≤ (a.cohort_size : Int) := by
    rw [hrd]
    have := Int.floor_le_floor (α := ℚ) h2
    rwa [Int.floor_natCast] at this
  refine ⟨⟨h1, h2, h3, h4⟩, ?_⟩
  intro hone
  rw [hcs] at hone
  have hrc : r ∈ buildCohort nt d :=
    targetRows_mem_cohort nt d r (by rw [ht]; exact List.mem_cons_self r rest)
  obtain ⟨b, hb⟩ := List.length_eq_one.mp hone
  have hrb : r = b := by rw [hb] at hrc; simpa using hrc
  subst hrb
  have hvals : meanVals nt d = [a.target_mean] := by
    unfold meanVals
    rw [hb, List.filterMap_cons, hn]
    rfl
  constructor
  · rw [hrk, hvals]
    unfold rankDesc countGt countEq
    simp [List.countP_cons]
  · rw [hd, hvals]
    simp [listMean]

/-- A three-row normalized table (Jan 1 of 2018-2020) for the C5
witness; the 2020 value 7 is the strict maximum. -/
def tblC5 : RawTable :=
  { columns := [dateColName, meanColName]
    rows := [[Cell.date ⟨2018, 1, 1⟩, Cell.num 3],
             [Cell.date ⟨2019, 1, 1⟩, Cell.num 5],
             [Cell.date ⟨2020, 1, 1⟩, Cell.num 7]] }

/-- The analysis record `analyze` produces on `tblC5` for 2020-01-01,
written with its defining expressions. -/
def anaC5 : AnalysisResult :=
  { target_mean := 7
    cohort_mean := listMean (meanVals tblC5 ⟨2020, 1, 1⟩)
    delta := 7 - listMean (meanVals tblC5 ⟨2020, 1, 1⟩)
    rank := rankDesc (meanVals tblC5 ⟨2020, 1, 1⟩) 7
    rank_displayed := Int.floor (rankDesc (meanVals tblC5 ⟨2020, 1, 1⟩) 7)
    cohort_size := (buildCohort tblC5 ⟨2020, 1, 1⟩).length }

/-- C5 witness: the bounds evaluated on the concrete three-row table. -/
theorem C5_witness :
    analyze tblC5 ⟨2020, 1, 1⟩ = some anaC5 ∧
    ((1 ≤ anaC5.rank ∧ anaC5.rank ≤ (anaC5.cohort_size : ℚ) ∧
      1 ≤ anaC5.rank_displayed ∧ anaC5.rank_displayed ≤ (anaC5.cohort_size : Int)) ∧
    (anaC5.cohort_size = 1 → anaC5.rank = 1 ∧ anaC5.delta = 0)) :=
  ⟨rfl, C5_rank_bounds tblC5 ⟨2020, 1, 1⟩ anaC5 rfl⟩

/-! ### C10 — the tie-breaking rule is the average-rank rule -/

/-- C10: the rank the analysis reports follows the average-rank rule:
for every list of cohort temperatures and every member value, the value
of `rankDesc` (the embedding of pandas `rank(ascending=False)`, which
`analyze` uses) equals the arithmetic average of the 1-based positions
the value's tie group occupies in any descending-by-temperature
ordering of the cohort. -/
theorem C10_average_rank_rule (vals l : List ℚ) (v : ℚ) (hp : l.Perm vals)
    (hs : l.Pairwise (fun a b => b ≤ a)) (hv : v ∈ vals) :
    rankDesc vals v = posSumFrom v l 1 / (countEq l v : ℚ) := by
  have hce : countEq l v = countEq vals v := hp.countP_eq _
  have hcg : countGt l v = countGt vals v := hp.countP_eq _
  have hpos : 1 ≤ countEq vals v := one_le_countEq vals v hv
  have hne : (countEq vals v : ℚ) ≠ 0 := by
    have : (1 : ℚ) ≤ (countEq vals v : ℚ) := by exact_mod_cast hpos
    linarith
  rw [posSumFrom_sorted v l hs, hce, hcg]
  unfold rankDesc
  field_simp
  ring

/-- C10 witness: in the cohort with values [2, 3, 3], the tied value 3
occupies positions 1 and 2 of the descending ordering [3, 3, 2], so its
rank is the non-integer average (1 + 2) / 2 = 3 / 2. -/
theorem C10_witness :
    rankDesc [2, 3, 3] 3 =
      posSumFrom 3 [3, 3, 2] 1 / (countEq [3, 3, 2] 3 : ℚ) :=
  C10_average_rank_rule [2, 3, 3] [3, 3, 2] 3 (by decide) (by decide) (by decide)

/-! ### C1 — which rows survive normalization -/

/-- The date parser restricted to the witness inputs: models
`pd.to_datetime(errors='coerce')`, which parses these ISO strings and
coerces anything else (such as "notadate") to NaT. -/
def parseC1 : String → Option Date := fun s =>
  if s = "2001-03-01" then some ⟨2001, 3, 1⟩ else none

/-- A raw table with all three temperature columns, one row with an
unparseable date but complete temperatures, and one row with a parseable
date but a missing minimum temperature. -/
def tblC1 : RawTable :=
  { columns := [dateColName, "평균기온(℃)", "최저기온(℃)", "최고기온(℃)"]
    rows := [[Cell.str "notadate", Cell.num 3, Cell.num 1, Cell.num 7],
             [Cell.str "2001-03-01", Cell.num 5, Cell.na, Cell.num 9]] }

/-- The single row normalization keeps from `tblC1`: the unparseable
date became NaT but the row survived. -/
def rowC1 : List Cell := [Cell.na, Cell.num 3, Cell.num 1, Cell.num 7]

/-- C1 counterexample: normalizing `tblC1` drops the row missing a
temperature but keeps the row whose date failed to parse — its date
cell is NaT in the returned table, so a row with an unparseable date is
not absent from the result, contrary to the claim. -/
theorem C1_counterexample :
    normalizeFrom parseC1 tblC1 =
      LoadResult.ok { columns := tblC1.columns, rows := [rowC1] } ∧
    (getCell tblC1.columns rowC1 dateColName).isna = true :=
  ⟨rfl, rfl⟩

/-- C1 (amended): every row of a table returned by normalization has a
non-missing value in each of the three temperature columns that is
present in the table; rows whose date fails to parse are retained, with
a missing (NaT) date value. -/
theorem C1_required_temps_present (parse : String → Option Date) (t nt : RawTable)
    (h : normalizeFrom parse t = LoadResult.ok nt) :
    ∀ r ∈ nt.rows, ∀ c ∈ tempCols, c ∈ nt.columns →
      (getCell nt.columns r c).isna = false := by
  simp only [normalizeFrom] at h
  split at h
  · have hnt : nt = dropnaTemps (cleanDates parse (renameCols (stripCols t))) := by
      injection h with h2
      exact h2.symm
    subst hnt
    intro r hr c hc hcc
    simp only [dropnaTemps] at hr
    rw [List.mem_filter] at hr
    have hce : c ∈ tempCols.filter
        (fun c => decide (c ∈ (cleanDates parse (renameCols (stripCols t))).columns)) :=
      List.mem_filter.mpr ⟨hc, by simpa using hcc⟩
    have := List.all_eq_true.mp hr.2 c hce
    simpa using this
  · exact absurd h (by simp)

/-- C1 witness: the amended statement on the concrete table — the kept
row has all three temperature values present. -/
theorem C1_witness :
    normalizeFrom parseC1 tblC1 =
      LoadResult.ok { columns := tblC1.columns, rows := [rowC1] } ∧
    (getCell tblC1.columns rowC1 meanColName).isna = false :=
  ⟨rfl, C1_required_temps_present parseC1 tblC1
    { columns := tblC1.columns, rows := [rowC1] } rfl rowC1 (by decide)
    meanColName (by decide) (by decide)⟩

/-! ### C2 — cohort mean and delta -/

/-- The numeric value of a cell known to be numeric. -/
def numValD : Cell → ℚ
  | Cell.num q => q
  | _ => 0

lemma filterMap_eq_map_of {α β : Type} (l : List α) (f : α → Option β) (g : α → β)
    (h : ∀ x ∈ l, f x = some (g x)) : l.filterMap f = l.map g := by
  induction l with
  | nil => rfl
  | cons x xs ih =>
    rw [List.filterMap_cons, h x (List.mem_cons_self x xs), List.map_cons,
      ih (fun y hy => h y (List.mem_cons_of_mem x hy))]

/-- C2: when the analysis produces a result and every cohort row has a
numeric mean temperature, the reported cohort mean is the sum of the
mean temperatures over exactly the (month, day)-matching rows divided by
the number of those rows — the target's own rows among them — and the
delta is the target mean minus that cohort mean. -/
theorem C2_cohort_mean_delta (nt : RawTable) (d : Date) (a : AnalysisResult)
    (h : analyze nt d = some a)
    (hall : ∀ r ∈ buildCohort nt d, ∃ q, getCell nt.columns r meanColName = Cell.num q) :
    a.cohort_mean =
      ((buildCohort nt d).map fun r => numValD (getCell nt.columns r meanColName)).sum /
        ((buildCohort nt d).length : ℚ) ∧
    a.delta = a.target_mean - a.cohort_mean ∧
    ∀ r ∈ targetRows nt d, r ∈ buildCohort nt d := by
  obtain ⟨r, rest, ht, hn, hcm, hd, -⟩ := analyze_some_spec nt d a h
  have hmap : meanVals nt d =
      (buildCohort nt d).map fun r => numValD (getCell nt.columns r meanColName) := by
    unfold meanVals
    refine filterMap_eq_map_of _ _ _ ?_
    intro x hx
    obtain ⟨q, hq⟩ := hall x hx
    rw [hq]
    rfl
  refine ⟨?_, by rw [hd, hcm], fun r hr => targetRows_mem_cohort nt d r hr⟩
  rw [hcm, listMean, hmap, List.length_map]

/-- A two-row normalized table (May 5 of 2019 and 2020) for the C2
witness. -/
def tblC2 : RawTable :=
  { columns := [dateColName, meanColName]
    rows := [[Cell.date ⟨2019, 5, 5⟩, Cell.num 10],
             [Cell.date ⟨2020, 5, 5⟩, Cell.num 14]] }

/-- The analysis record `analyze` produces on `tblC2` for 2020-05-05. -/
def anaC2 : AnalysisResult :=
  { target_mean := 14
    cohort_mean := listMean (meanVals tblC2 ⟨2020, 5, 5⟩)
    delta := 14 - listMean (meanVals tblC2 ⟨2020, 5, 5⟩)
    rank := rankDesc (meanVals tblC2 ⟨2020, 5, 5⟩) 14
    rank_displayed := Int.floor (rankDesc (meanVals tblC2 ⟨2020, 5, 5⟩) 14)
    cohort_size := (buildCohort tblC2 ⟨2020, 5, 5⟩).length }

/-- C2 witness: the mean and delta equalities evaluated on the concrete
two-row table. -/
theorem C2_witness :
    analyze tblC2 ⟨2020, 5, 5⟩ = some anaC2 ∧
    anaC2.cohort_mean =
      ((buildCohort tblC2 ⟨2020, 5, 5⟩).map
        fun r => numValD (getCell tblC2.columns r meanColName)).sum /
        ((buildCohort tblC2 ⟨2020, 5, 5⟩).length : ℚ) ∧
    anaC2.delta = anaC2.target_mean - anaC2.cohort_mean := by
  have hall : ∀ r ∈ buildCohort tblC2 ⟨2020, 5, 5⟩,
      ∃ q, getCell tblC2.columns r meanColName = Cell.num q := by
    intro r hr
    rw [show buildCohort tblC2 ⟨2020, 5, 5⟩ =
      [[Cell.date ⟨2019, 5, 5⟩, Cell.num 10], [Cell.date ⟨2020, 5, 5⟩, Cell.num 14]] from rfl] at hr
    simp only [List.mem_cons, List.not_mem_nil, or_false] at hr
    rcases hr with rfl | rfl
    · exact ⟨10, rfl⟩
    · exact ⟨14, rfl⟩
  exact ⟨rfl, (C2_cohort_mean_delta tblC2 ⟨2020, 5, 5⟩ anaC2 rfl hall).1,
    (C2_cohort_mean_delta tblC2 ⟨2020, 5, 5⟩ anaC2 rfl hall).2.1⟩

/-! ### C8 — the trend curve is optional and never disturbs the metrics -/

/-- C8: when the guarded analysis produces output, its metrics are
exactly those of `analyze`; the trend overlay is absent whenever the
cohort has at most 5 rows or the smoother fails; and the metrics do not
depend on the smoothing outcome at all. -/
theorem C8_trend_guard (smooth : List (List Cell) → Option (List (ℚ × ℚ)))
    (nt : RawTable) (d : Date) (out : DisplayOutput)
    (h : runAnalysis smooth nt d = some out) :
    analyze nt d = some out.metrics ∧
    ((buildCohort nt d).length ≤ 5 → out.trend = none) ∧
    (smooth (buildCohort nt d) = none → out.trend = none) ∧
    ∀ smooth2 out2, runAnalysis smooth2 nt d = some out2 → out2.metrics = out.metrics := by
  unfold runAnalysis at h
  split at h
  · exact absurd h (by simp)
  · rename_i a ha
    have hout : out = {
        metrics := a
        trend := if (buildCohort nt d).length > 5 then smooth (buildCohort nt d) else none } := by
      injection h with h2
      exact h2.symm
    subst hout
    refine ⟨ha, ?_, ?_, ?_⟩
    · intro hle
      show (if (buildCohort nt d).length > 5 then smooth (buildCohort nt d) else none) = none
      rw [if_neg (by omega)]
    · intro hsm
      show (if (buildCohort nt d).length > 5 then smooth (buildCohort nt d) else none) = none
      split
      · exact hsm
      · rfl
    · intro smooth2 out2 h2
      have hrun : runAnalysis smooth2 nt d = some {
          metrics := a
          trend := if (buildCohort nt d).length > 5 then smooth2 (buildCohort nt d) else none } := by
        unfold runAnalysis
        rw [ha]
      rw [hrun] at h2
      injection h2 with h3
      rw [← h3]

/-- A one-row normalized table for the C8 witness: its cohort has a
single member, below the trend threshold of 5. -/
def tblC8 : RawTable :=
  { columns := [dateColName, meanColName]
    rows := [[Cell.date ⟨2021, 7, 7⟩, Cell.num 20]] }

/-- A smoother that always succeeds, to show the threshold alone
suppresses the trend. -/
def smoothC8 : List (List Cell) → Option (List (ℚ × ℚ)) := fun _ => some [(1, 2)]

/-- The analysis record `analyze` produces on `tblC8` for 2021-07-07. -/
def anaC8 : AnalysisResult :=
  { target_mean := 20
    cohort_mean := listMean (meanVals tblC8 ⟨2021, 7, 7⟩)
    delta := 20 - listMean (meanVals tblC8 ⟨2021, 7, 7⟩)
    rank := rankDesc (meanVals tblC8 ⟨2021, 7, 7⟩) 20
    rank_displayed := Int.floor (rankDesc (meanVals tblC8 ⟨2021, 7, 7⟩) 20)
    cohort_size := (buildCohort tblC8 ⟨2021, 7, 7⟩).length }

/-- The guarded-analysis output on `tblC8`: metrics present, trend
absent. -/
def outC8 : DisplayOutput := { metrics := anaC8, trend := none }

/-- C8 witness: on the one-row table, even an always-succeeding smoother
yields no trend, while the metrics equal those of `analyze`. -/
theorem C8_witness :
    runAnalysis smoothC8 tblC8 ⟨2021, 7, 7⟩ = some outC8 ∧
    analyze tblC8 ⟨2021, 7, 7⟩ = some outC8.metrics ∧
    outC8.trend = none :=
  ⟨rfl, (C8_trend_guard smoothC8 tblC8 ⟨2021, 7, 7⟩ outC8 rfl).1,
    (C8_trend_guard smoothC8 tblC8 ⟨2021, 7, 7⟩ outC8 rfl).2.1 (by decide)⟩

end SeoulTemp
